import Mathlib

/-!
# Lepton sensor transport layer

A shallow embedding of the two bus components of the repository:

* `LeptonI2cIf` (src/lepton/leptonI2cIf.cpp): 16-bit register access over the two-wire
  command bus;
* `Spi_interface` (src/spi/spiIf.cpp): byte transfers over the four-wire serial bus.

Both components talk to the kernel through `open`, `close`, `ioctl`, `write` and `read`.
These calls are modelled by a `World`: a descriptor table, the user memory reachable through
raw pointers, the ordered list of system calls issued so far, and the state of an arbitrary
device driver that decides the outcome of every call.
-/

namespace Lepton

/-! ## The system-call environment -/

/-- User memory as seen through raw pointers: address to byte. Address 0 is the null pointer. -/
abbrev Mem := Nat → Nat

/-- The fields of the kernel transfer descriptor that spiIf.cpp touches. Every other field is
zeroed once by `memset` and never written again. -/
structure spi_ioc_transfer where
  tx_buf : Nat
  rx_buf : Nat
  len : Nat
  speed_hz : Nat
  delay_usecs : Nat
  bits_per_word : Nat
deriving DecidableEq, Repr

/-- The ioctl requests used by the two components, each with the argument passed along. -/
inductive IoctlReq where
  | I2C_SLAVE (addr : Nat)
  | SPI_IOC_WR_MODE (mode : Nat)
  | SPI_IOC_WR_BITS_PER_WORD (bits : Nat)
  | SPI_IOC_WR_MAX_SPEED_HZ (hz : Nat)
  | SPI_IOC_MESSAGE (segs : List spi_ioc_transfer)
deriving DecidableEq, Repr

/-- One system call as issued by the program, with its arguments. -/
inductive Syscall where
  | open_ (path : String)
  | close (fd : Int)
  | ioctl (fd : Int) (req : IoctlReq)
  | write (fd : Int) (bytes : List Nat)
  | read (fd : Int) (count : Nat)
deriving DecidableEq, Repr

/-- The diagnostic lines leptonI2cIf.cpp prints on the error stream, one constructor per
well-formed `fprintf` call site. The call on the open-failure path of `initialise` has two
`%s` conversions and one argument; it prints no defined line and has no constructor. -/
inductive Diag where
  | slave_failed (addr : Nat)
  | initialised (path : String)
  | write_failed (reg_address : Nat)
  | set_read_address_failed (reg_address : Nat)
  | read_failed (reg_address : Nat)
deriving DecidableEq, Repr

/-- A device driver behind the descriptors: it decides whether a node can be opened and what
each ioctl, write and read on an open descriptor returns. `read` also yields the bytes it
delivers into the caller's buffer; an ioctl may write user memory (receive buffers). -/
structure Driver (σ : Type) where
  open_ : σ → String → σ × Bool
  release : σ → Nat → σ
  ioctl : σ → Mem → Nat → IoctlReq → σ × Mem × Int
  write : σ → Nat → List Nat → σ × Int
  read : σ → Nat → Nat → σ × Int × List Nat

/-- The process environment: driver state, user memory, the table of open descriptors, the
largest size that table ever had, the system calls issued so far (oldest first) and the
error stream. -/
structure World (σ : Type) where
  dev : σ
  mem : Mem
  fds : List Nat
  peak : Nat
  trace : List Syscall
  stderr : List Diag

/-- The lowest descriptor number not in the table, as `open` allocates it. -/
def lowest_free (fds : List Nat) : Nat :=
  ((List.range (fds.length + 1)).find? (fun n => !fds.contains n)).getD (fds.length + 1)

/-- Whether `fd` names an open descriptor of the process. -/
def is_open (fds : List Nat) (fd : Int) : Bool :=
  decide (0 ≤ fd) && fds.contains fd.toNat

/-- Append a diagnostic line to the error stream. -/
def log {σ : Type} (w : World σ) (d : Diag) : World σ :=
  { w with stderr := w.stderr ++ [d] }

/-- The call `open(path, O_RDWR)`: a new descriptor, or -1. -/
def sys_open {σ : Type} (K : Driver σ) (w : World σ) (path : String) : World σ × Int :=
  let r := K.open_ w.dev path
  let tr := w.trace ++ [Syscall.open_ path]
  if r.2 then
    let fd := lowest_free w.fds
    ({ w with dev := r.1, fds := fd :: w.fds, peak := max w.peak (w.fds.length + 1),
              trace := tr }, (fd : Int))
  else
    ({ w with dev := r.1, trace := tr }, -1)

/-- The call `close(fd)`: 0, or -1 when `fd` is not an open descriptor. -/
def sys_close {σ : Type} (K : Driver σ) (w : World σ) (fd : Int) : World σ × Int :=
  let tr := w.trace ++ [Syscall.close fd]
  if is_open w.fds fd then
    ({ w with dev := K.release w.dev fd.toNat, fds := w.fds.erase fd.toNat, trace := tr }, 0)
  else
    ({ w with trace := tr }, -1)

/-- The call `ioctl(fd, req, arg)`: the driver's answer, or -1 when `fd` is not open. -/
def sys_ioctl {σ : Type} (K : Driver σ) (w : World σ) (fd : Int) (req : IoctlReq) :
    World σ × Int :=
  let tr := w.trace ++ [Syscall.ioctl fd req]
  if is_open w.fds fd then
    let r := K.ioctl w.dev w.mem fd.toNat req
    ({ w with dev := r.1, mem := r.2.1, trace := tr }, r.2.2)
  else
    ({ w with trace := tr }, -1)

/-- The call `write(fd, bytes, bytes.length)`: the count written, or -1 when `fd` is not
open. -/
def sys_write {σ : Type} (K : Driver σ) (w : World σ) (fd : Int) (bytes : List Nat) :
    World σ × Int :=
  let tr := w.trace ++ [Syscall.write fd bytes]
  if is_open w.fds fd then
    let r := K.write w.dev fd.toNat bytes
    ({ w with dev := r.1, trace := tr }, r.2)
  else
    ({ w with trace := tr }, -1)

/-- The call `read(fd, buf, count)`: the count read and the bytes delivered, or -1 and
nothing when `fd` is not open. -/
def sys_read {σ : Type} (K : Driver σ) (w : World σ) (fd : Int) (count : Nat) :
    World σ × Int × List Nat :=
  let tr := w.trace ++ [Syscall.read fd count]
  if is_open w.fds fd then
    let r := K.read w.dev fd.toNat count
    ({ w with dev := r.1, trace := tr }, r.2.1, r.2.2)
  else
    ({ w with trace := tr }, -1, [])

/-! ## LeptonI2cIf (src/lepton/leptonI2cIf.cpp) -/

/-- The FLIR Lepton default CCI address. -/
def LEPTON_CCI_ADDRESS : Nat := 0x2A

/-- Instance state of `LeptonI2cIf`. -/
structure LeptonI2cIf where
  bus_number : Nat
  device_file : Int
deriving DecidableEq, Repr

namespace LeptonI2cIf

/-- The device node path built by `snprintf` from `LEPTON_I2C_DEVICE_FMT`. -/
def device_path (bus_number : Nat) : String :=
  "/dev/i2c-" ++ toString bus_number

/-- The constructor: stores the bus number, descriptor field invalid. -/
def new (bus_number : Nat) : LeptonI2cIf :=
  { bus_number := bus_number, device_file := -1 }

/-- `LeptonI2cIf::initialise`: open the node, bind the peripheral address. When the open
fails, the source stores -1 in the descriptor field and then calls `fprintf` with a format of
two `%s` conversions and a single argument: the behaviour of the call is undefined from there
on, and the outcome is `none`. On every other path the outcome is the world, the instance and
the value returned. -/
def initialise {σ : Type} (K : Driver σ) (w : World σ) (s : LeptonI2cIf) :
    Option (World σ × LeptonI2cIf × Bool) :=
  let path := device_path s.bus_number
  let o := sys_open K w path
  let s1 : LeptonI2cIf := { s with device_file := o.2 }
  if s1.device_file < 0 then
    none
  else
    let c := sys_ioctl K o.1 s1.device_file (IoctlReq.I2C_SLAVE LEPTON_CCI_ADDRESS)
    if c.2 < 0 then
      let cl := sys_close K (log c.1 (Diag.slave_failed LEPTON_CCI_ADDRESS)) s1.device_file
      some (cl.1, { s1 with device_file := -1 }, false)
    else
      some (log c.1 (Diag.initialised path), s1, true)

/-- Two `initialise` calls in a row on one instance. -/
def initialise_twice {σ : Type} (K : Driver σ) (w : World σ) (s : LeptonI2cIf) :
    Option (World σ × LeptonI2cIf × Bool) :=
  (initialise K w s).bind (fun r => initialise K r.1 r.2.1)

/-- `LeptonI2cIf::terminate`: close the descriptor if the field is valid. -/
def terminate {σ : Type} (K : Driver σ) (w : World σ) (s : LeptonI2cIf) :
    World σ × LeptonI2cIf :=
  if 0 ≤ s.device_file then
    ((sys_close K w s.device_file).1, { s with device_file := -1 })
  else
    (w, s)

/-- `LeptonI2cIf::write_register`: returns nothing; the instance is not modified. -/
def write_register {σ : Type} (K : Driver σ) (w : World σ) (s : LeptonI2cIf)
    (reg_address data : Nat) : World σ :=
  let buffer : List Nat :=
    [(reg_address >>> 8) &&& 0xFF, reg_address &&& 0xFF, (data >>> 8) &&& 0xFF, data &&& 0xFF]
  let r := sys_write K w s.device_file buffer
  if r.2 ≠ 4 then log r.1 (Diag.write_failed reg_address) else r.1

/-- The two-byte receive buffer of `read_register`, zero-initialised, after the kernel has
stored the delivered bytes in it. -/
def data_buf (delivered : List Nat) : Nat × Nat :=
  (delivered.getD 0 0 % 256, delivered.getD 1 0 % 256)

/-- `LeptonI2cIf::read_register`: the value handed back is a `uint16_t`. -/
def read_register {σ : Type} (K : Driver σ) (w : World σ) (s : LeptonI2cIf)
    (reg_address : Nat) : World σ × Nat :=
  let addr_buf : List Nat := [(reg_address >>> 8) &&& 0xFF, reg_address &&& 0xFF]
  let a := sys_write K w s.device_file addr_buf
  if a.2 ≠ 2 then
    (log a.1 (Diag.set_read_address_failed reg_address), 0)
  else
    let r := sys_read K a.1 s.device_file 2
    if r.2.1 ≠ 2 then
      (log r.1 (Diag.read_failed reg_address), 0)
    else
      let b := data_buf r.2.2
      (r.1, ((b.1 <<< 8) ||| b.2) % 65536)

end LeptonI2cIf

/-! ## A loopback register store -/

/-- State of the loopback peripheral: the register file and the currently selected address. -/
structure Loopback where
  regs : Nat → Nat
  sel : Nat

/-- The loopback register store of the round-trip law: a 4-byte write stores the big-endian
value of bytes 2..3 at the big-endian address of bytes 0..1, a 2-byte write selects the
address, a 2-byte read returns the stored value most-significant byte first. -/
def loopback : Driver Loopback where
  open_ := fun d _ => (d, true)
  release := fun d _ => d
  ioctl := fun d m _ _ => (d, m, 0)
  write := fun d _ bytes =>
    match bytes with
    | [a0, a1, d0, d1] =>
        ({ d with regs := Function.update d.regs (a0 * 256 + a1) (d0 * 256 + d1) }, 4)
    | [a0, a1] => ({ d with sel := a0 * 256 + a1 }, 2)
    | _ => (d, -1)
  read := fun d _ count =>
    if count = 2 then (d, 2, [d.regs d.sel / 256, d.regs d.sel % 256]) else (d, -1, [])

/-! ## Spi_interface (src/spi/spiIf.cpp) -/

/-- The value of `SPI_MODE_3` (clock polarity 1, clock phase 1). -/
def SPI_MODE_3 : Nat := 3

/-- Instance state of `Spi_interface`. The two-element array `transfer_structs` is a pair. -/
structure Spi_interface where
  device_name : String
  spi_mode : Nat
  spi_speed : Nat
  spi_bits_per_word : Nat
  device_fd : Int
  transfer_structs : spi_ioc_transfer × spi_ioc_transfer
deriving DecidableEq, Repr

namespace Spi_interface

def default_mode : Nat := SPI_MODE_3

def default_speed : Nat := 11000000

def default_bits_per_word : Nat := 8

/-- The private `Spi_interface::initialise`: stores the configuration, zeroes both transfer
descriptors and stamps them with the clock rate and word size, builds the node path and marks
the descriptor field invalid. -/
def initialise (bus_number channel_number mode speed bits_per_word : Nat) : Spi_interface :=
  let t : spi_ioc_transfer :=
    { tx_buf := 0, rx_buf := 0, len := 0, speed_hz := speed, delay_usecs := 0,
      bits_per_word := bits_per_word }
  { device_name := "/dev/spidev" ++ toString bus_number ++ "." ++ toString channel_number,
    spi_mode := mode,
    spi_speed := speed,
    spi_bits_per_word := bits_per_word,
    device_fd := -1,
    transfer_structs := (t, t) }

/-- The five-argument constructor. -/
def new (bus_number channel_number mode speed bits_per_word : Nat) : Spi_interface :=
  initialise bus_number channel_number mode speed bits_per_word

/-- The two-argument constructor, with the default configuration. -/
def new_default (bus_number channel_number : Nat) : Spi_interface :=
  initialise bus_number channel_number default_mode default_speed default_bits_per_word

/-- `Spi_interface::disable`. -/
def disable {σ : Type} (K : Driver σ) (w : World σ) (s : Spi_interface) :
    World σ × Spi_interface × Bool :=
  if 0 ≤ s.device_fd then
    ((sys_close K w s.device_fd).1, { s with device_fd := -1 }, true)
  else
    (w, s, true)

/-- `Spi_interface::enable`. The three configuration ioctls are joined by `||` in the source:
the first one that fails ends the chain. -/
def enable {σ : Type} (K : Driver σ) (w : World σ) (s : Spi_interface) :
    World σ × Spi_interface × Bool :=
  let d := disable K w s
  let o := sys_open K d.1 d.2.1.device_name
  let s1 : Spi_interface := { d.2.1 with device_fd := o.2 }
  if s1.device_fd < 0 then
    (o.1, s1, false)
  else
    let c1 := sys_ioctl K o.1 s1.device_fd (IoctlReq.SPI_IOC_WR_MODE s1.spi_mode)
    if c1.2 < 0 then
      let x := disable K c1.1 s1
      (x.1, x.2.1, false)
    else
      let c2 := sys_ioctl K c1.1 s1.device_fd
        (IoctlReq.SPI_IOC_WR_BITS_PER_WORD s1.spi_bits_per_word)
      if c2.2 < 0 then
        let x := disable K c2.1 s1
        (x.1, x.2.1, false)
      else
        let c3 := sys_ioctl K c2.1 s1.device_fd (IoctlReq.SPI_IOC_WR_MAX_SPEED_HZ s1.spi_speed)
        if c3.2 < 0 then
          let x := disable K c3.1 s1
          (x.1, x.2.1, false)
        else
          (c3.1, s1, true)

/-- `Spi_interface::write`. Buffers are raw pointers; 0 is the null pointer. -/
def write {σ : Type} (K : Driver σ) (w : World σ) (s : Spi_interface)
    (tx_buffer tx_length : Nat) : World σ × Spi_interface × Bool :=
  if s.device_fd < 0 ∨ tx_buffer = 0 ∨ tx_length = 0 then
    (w, s, false)
  else
    let t0 : spi_ioc_transfer :=
      { s.transfer_structs.1 with tx_buf := tx_buffer, rx_buf := 0, len := tx_length }
    let s1 : Spi_interface := { s with transfer_structs := (t0, s.transfer_structs.2) }
    let r := sys_ioctl K w s1.device_fd (IoctlReq.SPI_IOC_MESSAGE [s1.transfer_structs.1])
    (r.1, s1, decide (0 ≤ r.2))

/-- `Spi_interface::transfer`. -/
def transfer {σ : Type} (K : Driver σ) (w : World σ) (s : Spi_interface)
    (tx_buffer rx_buffer tx_rx_length : Nat) : World σ × Spi_interface × Bool :=
  if s.device_fd < 0 ∨ tx_buffer = 0 ∨ rx_buffer = 0 ∨ tx_rx_length = 0 then
    (w, s, false)
  else
    let t0 : spi_ioc_transfer :=
      { s.transfer_structs.1 with tx_buf := tx_buffer, rx_buf := rx_buffer,
                                   len := tx_rx_length }
    let s1 : Spi_interface := { s with transfer_structs := (t0, s.transfer_structs.2) }
    let r := sys_ioctl K w s1.device_fd (IoctlReq.SPI_IOC_MESSAGE [s1.transfer_structs.1])
    (r.1, s1, decide (0 ≤ r.2))

/-- `Spi_interface::write_then_read`. -/
def write_then_read {σ : Type} (K : Driver σ) (w : World σ) (s : Spi_interface)
    (tx_buffer tx_length rx_buffer rx_length : Nat) : World σ × Spi_interface × Bool :=
  if s.device_fd < 0 ∨ tx_buffer = 0 ∨ tx_length = 0 ∨ rx_buffer = 0 ∨ rx_length = 0 then
    (w, s, false)
  else
    let t0 : spi_ioc_transfer :=
      { s.transfer_structs.1 with tx_buf := tx_buffer, rx_buf := 0, len := tx_length }
    let t1 : spi_ioc_transfer :=
      { s.transfer_structs.2 with tx_buf := 0, rx_buf := rx_buffer, len := rx_length }
    let s1 : Spi_interface := { s with transfer_structs := (t0, t1) }
    let r := sys_ioctl K w s1.device_fd
      (IoctlReq.SPI_IOC_MESSAGE [s1.transfer_structs.1, s1.transfer_structs.2])
    (r.1, s1, decide (0 ≤ r.2))

end Spi_interface

/-- One call of the public interface of `Spi_interface`, with its arguments. -/
inductive SpiCall where
  | enable
  | disable
  | write (tx_buffer tx_length : Nat)
  | transfer (tx_buffer rx_buffer tx_rx_length : Nat)
  | write_then_read (tx_buffer tx_length rx_buffer rx_length : Nat)
deriving DecidableEq, Repr

namespace Spi_interface

/-- Perform one call on the instance. -/
def call {σ : Type} (K : Driver σ) (w : World σ) (s : Spi_interface) :
    SpiCall → World σ × Spi_interface × Bool
  | SpiCall.enable => enable K w s
  | SpiCall.disable => disable K w s
  | SpiCall.write tx n => write K w s tx n
  | SpiCall.transfer tx rx n => transfer K w s tx rx n
  | SpiCall.write_then_read tx n rx m => write_then_read K w s tx n rx m

/-- Perform a sequence of calls, first to last. -/
def run {σ : Type} (K : Driver σ) (w : World σ) (s : Spi_interface) :
    List SpiCall → World σ × Spi_interface
  | [] => (w, s)
  | c :: cs => run K (call K w s c).1 (call K w s c).2.1 cs

/-- Whether no `enable` call of the sequence succeeds when the sequence is performed from
`(w, s)`. -/
def no_successful_enable {σ : Type} (K : Driver σ) (w : World σ) (s : Spi_interface) :
    List SpiCall → Prop
  | [] => True
  | c :: cs =>
      (c = SpiCall.enable → (call K w s c).2.2 = false) ∧
        no_successful_enable K (call K w s c).1 (call K w s c).2.1 cs

end Spi_interface

/-! ## An echoing serial peripheral -/

/-- The `n` bytes at address `p`. -/
def read_bytes (m : Mem) (p n : Nat) : List Nat :=
  (List.range n).map (fun i => m (p + i))

/-- Store `bs` at address `p`. -/
def write_bytes (m : Mem) (p : Nat) (bs : List Nat) : Mem :=
  fun a => if p ≤ a ∧ a < p + bs.length then bs.getD (a - p) 0 else m a

/-- One segment on the echoing peripheral: what is clocked out (zeros when there is no
transmit buffer) is clocked back into the receive buffer, when there is one. -/
def echo_segment (m : Mem) (t : spi_ioc_transfer) : Mem :=
  let out := if t.tx_buf = 0 then List.replicate t.len 0 else read_bytes m t.tx_buf t.len
  if t.rx_buf = 0 then m else write_bytes m t.rx_buf out

/-- A serial peripheral that echoes every transmitted byte. A message returns the total
number of bytes clocked; the configuration ioctls succeed. -/
def echo : Driver Unit where
  open_ := fun d _ => (d, true)
  release := fun d _ => d
  ioctl := fun d m _ req =>
    match req with
    | IoctlReq.SPI_IOC_MESSAGE segs =>
        (d, segs.foldl echo_segment m, ((segs.map (fun t => t.len)).sum : Nat))
    | _ => (d, m, 0)
  write := fun d _ bytes => (d, bytes.length)
  read := fun d _ _ => (d, -1, [])

/-- A world with no open descriptor, zeroed memory and an empty history. -/
def World.fresh {σ : Type} (d : σ) : World σ :=
  { dev := d, mem := fun _ => 0, fds := [], peak := 0, trace := [], stderr := [] }

/-- A loopback world in which descriptor 3 is open and every register holds `x`. -/
def Loopback.world (x : Nat) : World Loopback :=
  { dev := { regs := fun _ => x, sel := 0 }, mem := fun _ => 0, fds := [3], peak := 1,
    trace := [], stderr := [] }

/-- A `LeptonI2cIf` on bus 1 holding descriptor 3. -/
def LeptonI2cIf.on3 : LeptonI2cIf :=
  { bus_number := 1, device_file := 3 }

/-- A driver whose state counts the opens still granted: a node opens while the count is
positive, every ioctl succeeds. -/
def granting : Driver Nat where
  open_ := fun d _ => (d - 1, decide (0 < d))
  release := fun d _ => d
  ioctl := fun d m _ _ => (d, m, 0)
  write := fun d _ bytes => (d, bytes.length)
  read := fun d _ _ => (d, -1, [])

/-- A driver on which every node opens and whose state counts the address binds still
granted: `I2C_SLAVE` succeeds while the count is positive, every other ioctl succeeds. -/
def binding : Driver Nat where
  open_ := fun d _ => (d, true)
  release := fun d _ => d
  ioctl := fun d m _ req =>
    match req with
    | IoctlReq.I2C_SLAVE _ => (d - 1, m, if 0 < d then 0 else -1)
    | _ => (d, m, 0)
  write := fun d _ bytes => (d, bytes.length)
  read := fun d _ _ => (d, -1, [])

/-- A world in which descriptor 3 is the only open descriptor. -/
def World.with3 {σ : Type} (d : σ) : World σ :=
  { dev := d, mem := fun _ => 0, fds := [3], peak := 1, trace := [], stderr := [] }

/-- A `Spi_interface` with the default configuration holding descriptor 3. -/
def Spi_interface.on3 : Spi_interface :=
  { Spi_interface.new_default 0 0 with device_fd := 3 }

/-- Accounting invariant of an instance living in a world whose table was `T` and whose peak
was `P` when the instance was constructed: the table is `T` with the instance's descriptor,
if its field is valid, on top; the table never held more than one descriptor beyond `T`. -/
def Accounted {σ : Type} (T : List Nat) (P : Nat) (w : World σ) (s : Spi_interface) : Prop :=
  w.fds = (if 0 ≤ s.device_fd then [s.device_fd.toNat] else []) ++ T ∧
    w.peak ≤ max P (T.length + 1)

/-- A world for the echo test: descriptor 3 open, the byte 0xA5 stored at address 100. -/
def World.a5 : World Unit :=
  { dev := (), mem := fun a => if a = 100 then 0xA5 else 0, fds := [3], peak := 1,
    trace := [], stderr := [] }

/-! ## I2CDevice (src/I2C/i2cIf.cpp) -/

/-- Instance state of `I2CDevice`. -/
structure I2CDevice where
  fd : Int
  address : Nat
deriving DecidableEq, Repr

/-- The caller's buffer after the kernel has stored the delivered bytes at its start. -/
def store_bytes (buffer delivered : List Nat) : List Nat :=
  (List.range buffer.length).map
    (fun i => if i < delivered.length then delivered.getD i 0 % 256 else buffer.getD i 0)

namespace I2CDevice

/-- The constructor: opens the node and binds the peripheral address; each failure throws a
`std::runtime_error`, modelled as `Except.error` with the message. -/
def new {σ : Type} (K : Driver σ) (w : World σ) (devicePath : String) (addr : Nat) :
    World σ × Except String I2CDevice :=
  let o := sys_open K w devicePath
  if o.2 < 0 then
    (o.1, Except.error ("Failed to open I2C device"))
  else
    let c := sys_ioctl K o.1 o.2 (IoctlReq.I2C_SLAVE addr)
    if c.2 < 0 then
      (c.1, Except.error ("Failed to set I2C address"))
    else
      (c.1, Except.ok { fd := o.2, address := addr })

/-- `I2CDevice::readBytes`: writes the two address bytes, then reads `length` bytes into the
caller's buffer; yields the buffer afterwards, or the exception thrown. -/
def readBytes {σ : Type} (K : Driver σ) (w : World σ) (s : I2CDevice) (reg : Nat)
    (buffer : List Nat) (length : Nat) : World σ × Except String (List Nat) :=
  let regBuf : List Nat := [(reg >>> 8) % 256, (reg &&& 0xFF) % 256]
  let a := sys_write K w s.fd regBuf
  if a.2 ≠ 2 then
    (a.1, Except.error ("Failed to write register address"))
  else
    let r := sys_read K a.1 s.fd length
    if r.2.1 ≠ (length : Int) then
      (r.1, Except.error ("Failed to read I2C data"))
    else
      (r.1, Except.ok (store_bytes buffer r.2.2))

/-- `I2CDevice::readU16`: the value handed back is a `uint16_t`. -/
def readU16 {σ : Type} (K : Driver σ) (w : World σ) (s : I2CDevice) (reg : Nat) :
    World σ × Except String Nat :=
  let r := readBytes K w s reg [0, 0] 2
  match r.2 with
  | Except.error e => (r.1, Except.error e)
  | Except.ok buf => (r.1, Except.ok (((buf.getD 1 0 <<< 8) ||| buf.getD 0 0) % 65536))

/-- An `I2CDevice` bound to the CCI address and holding descriptor 3. -/
def on3 : I2CDevice :=
  { fd := 3, address := LEPTON_CCI_ADDRESS }

end I2CDevice

/-! ## Basic facts about the system calls -/

section basics

variable {σ : Type} (K : Driver σ) (w : World σ)

@[simp] theorem log_trace (d : Diag) : (log w d).trace = w.trace := rfl

@[simp] theorem log_fds (d : Diag) : (log w d).fds = w.fds := rfl

@[simp] theorem log_peak (d : Diag) : (log w d).peak = w.peak := rfl

@[simp] theorem log_mem (d : Diag) : (log w d).mem = w.mem := rfl

@[simp] theorem log_dev (d : Diag) : (log w d).dev = w.dev := rfl

@[simp] theorem sys_write_trace (fd : Int) (bytes : List Nat) :
    (sys_write K w fd bytes).1.trace = w.trace ++ [Syscall.write fd bytes] := by
  unfold sys_write; split <;> rfl

@[simp] theorem sys_write_fds (fd : Int) (bytes : List Nat) :
    (sys_write K w fd bytes).1.fds = w.fds := by
  unfold sys_write; split <;> rfl

@[simp] theorem sys_read_trace (fd : Int) (count : Nat) :
    (sys_read K w fd count).1.trace = w.trace ++ [Syscall.read fd count] := by
  unfold sys_read; split <;> rfl

@[simp] theorem sys_read_fds (fd : Int) (count : Nat) :
    (sys_read K w fd count).1.fds = w.fds := by
  unfold sys_read; split <;> rfl

@[simp] theorem sys_ioctl_trace (fd : Int) (req : IoctlReq) :
    (sys_ioctl K w fd req).1.trace = w.trace ++ [Syscall.ioctl fd req] := by
  unfold sys_ioctl; split <;> rfl

@[simp] theorem sys_ioctl_fds (fd : Int) (req : IoctlReq) :
    (sys_ioctl K w fd req).1.fds = w.fds := by
  unfold sys_ioctl; split <;> rfl

@[simp] theorem sys_ioctl_peak (fd : Int) (req : IoctlReq) :
    (sys_ioctl K w fd req).1.peak = w.peak := by
  unfold sys_ioctl; split <;> rfl

theorem is_open_neg (fds : List Nat) (fd : Int) (h : fd < 0) : is_open fds fd = false := by
  simp [is_open, h]

end basics

/-! ## Byte framing -/

theorem hi_byte (a : Nat) (ha : a < 65536) : (a >>> 8) &&& 0xFF = a / 256 := by
  have h1 : (a >>> 8) &&& 0xFF = (a >>> 8) % 2 ^ 8 := Nat.and_pow_two_sub_one_eq_mod _ 8
  rw [h1, Nat.shiftRight_eq_div_pow]
  have : a / 2 ^ 8 < 2 ^ 8 := by omega
  exact Nat.mod_eq_of_lt this

theorem lo_byte (a : Nat) : a &&& 0xFF = a % 256 :=
  Nat.and_pow_two_sub_one_eq_mod a 8

theorem be_decode (b0 b1 : Nat) (h0 : b0 < 256) (h1 : b1 < 256) :
    ((b0 <<< 8) ||| b1) % 65536 = b0 * 256 + b1 := by
  have h : 2 ^ 8 * b0 + b1 = 2 ^ 8 * b0 ||| b1 := Nat.mul_add_lt_is_or (by simpa using h1) b0
  rw [Nat.shiftLeft_eq, Nat.mul_comm b0 (2 ^ 8), ← h]
  omega

theorem be_split (v : Nat) : v / 256 * 256 + v % 256 = v := by omega

/-! ## LeptonI2cIf: register framing -/

/-- C1. Round trip on the loopback register store: on an open instance, for 16-bit `a` and
`v`, `write_register a v` immediately followed by `read_register a` returns `v`. -/
theorem loopback_round_trip (w : World Loopback) (s : LeptonI2cIf) (a v : Nat)
    (ha : a < 65536) (hv : v < 65536) (hopen : is_open w.fds s.device_file = true) :
    (LeptonI2cIf.read_register loopback
        (LeptonI2cIf.write_register loopback w s a v) s a).2 = v := by
  have h0 : v / 256 < 256 := by omega
  have h1 : v % 256 < 256 := by omega
  have e0 : v / 256 % 256 = v / 256 := Nat.mod_eq_of_lt h0
  have e1 : v % 256 % 256 = v % 256 := Nat.mod_eq_of_lt h1
  have hd : ((v / 256) <<< 8 ||| v % 256) % 65536 = v := by
    rw [be_decode _ _ h0 h1]; exact be_split v
  simp only [LeptonI2cIf.write_register, LeptonI2cIf.read_register, LeptonI2cIf.data_buf,
    hi_byte a ha, hi_byte v hv, lo_byte]
  simp [sys_write, sys_read, hopen, loopback, log, be_split, e0, e1, hd]

/-- Witness of C1: address 0x1234, value 0xABCD on descriptor 3. -/
theorem loopback_round_trip_witness :
    (LeptonI2cIf.read_register loopback
        (LeptonI2cIf.write_register loopback (Loopback.world 0) LeptonI2cIf.on3 0x1234 0xABCD)
        LeptonI2cIf.on3 0x1234).2 = 0xABCD :=
  loopback_round_trip (Loopback.world 0) LeptonI2cIf.on3 0x1234 0xABCD
    (by decide) (by decide) (by decide)

/-- C3. The value `read_register` hands back is always at most 65535; and when the address
write transfers 2 bytes and the read transfers 2 bytes delivering `b0, b1` in wire order,
the call issues exactly the write of `[a / 256, a % 256]` followed by one 2-byte read, and
hands back `b0 * 256 + b1`. -/
theorem read_register_big_endian {σ : Type} (K : Driver σ) (w : World σ) (s : LeptonI2cIf)
    (a : Nat) :
    (LeptonI2cIf.read_register K w s a).2 ≤ 65535 ∧
    ∀ b0 b1 : Nat, a < 65536 → b0 < 256 → b1 < 256 →
      (sys_write K w s.device_file [a / 256, a % 256]).2 = 2 →
      (sys_read K (sys_write K w s.device_file [a / 256, a % 256]).1 s.device_file 2).2
        = (2, [b0, b1]) →
      (LeptonI2cIf.read_register K w s a).1.trace =
          w.trace ++ [Syscall.write s.device_file [a / 256, a % 256],
                      Syscall.read s.device_file 2] ∧
        (LeptonI2cIf.read_register K w s a).2 = b0 * 256 + b1 := by
  constructor
  · unfold LeptonI2cIf.read_register
    simp only
    split
    · simp
    · split
      · simp
      · simp only; omega
  · intro b0 b1 ha hb0 hb1 hw hr
    have e0 : b0 % 256 = b0 := Nat.mod_eq_of_lt hb0
    have e1 : b1 % 256 = b1 := Nat.mod_eq_of_lt hb1
    simp only [LeptonI2cIf.read_register, hi_byte a ha, lo_byte, hw, hr,
      LeptonI2cIf.data_buf]
    simp [e0, e1, be_decode b0 b1 hb0 hb1]

/-- Witness of C3: every loopback register holds 0xBEEF, so the read delivers 0xBE, 0xEF. -/
theorem read_register_big_endian_witness :
    (LeptonI2cIf.read_register loopback (Loopback.world 0xBEEF) LeptonI2cIf.on3 0x1234).1.trace
        = [] ++ [Syscall.write 3 [0x1234 / 256, 0x1234 % 256], Syscall.read 3 2] ∧
      (LeptonI2cIf.read_register loopback (Loopback.world 0xBEEF) LeptonI2cIf.on3 0x1234).2
        = 0xBE * 256 + 0xEF :=
  (read_register_big_endian loopback (Loopback.world 0xBEEF) LeptonI2cIf.on3 0x1234).2
    0xBE 0xEF (by decide) (by decide) (by decide) rfl rfl

/-! ## LeptonI2cIf: failure reporting -/

/-- C4, the code at the failing input. On an instance that was never initialised, over a
device whose every register holds 0x5A5A, the address write fails and `read_register` hands
back 0; on an open instance whose register holds 0 the read succeeds and hands back 0 too:
the caller receives the same value in both cases. A failing `write_register` hands nothing
back, it only prints a diagnostic line. -/
theorem read_register_failure_reads_zero :
    (sys_write loopback (World.fresh { regs := fun _ => 0x5A5A, sel := 0 })
        (LeptonI2cIf.new 1).device_file [0x12, 0x34]).2 = -1 ∧
    (LeptonI2cIf.read_register loopback (World.fresh { regs := fun _ => 0x5A5A, sel := 0 })
        (LeptonI2cIf.new 1) 0x1234).2 = 0 ∧
    (LeptonI2cIf.read_register loopback (Loopback.world 0) LeptonI2cIf.on3 0x1234).2 = 0 ∧
    (LeptonI2cIf.write_register loopback (World.fresh { regs := fun _ => 0x5A5A, sel := 0 })
        (LeptonI2cIf.new 1) 0x1234 0xABCD).stderr = [Diag.write_failed 0x1234] :=
  ⟨rfl, rfl, rfl, rfl⟩

/-! ## Descriptor accounting -/

section accounting

variable {σ : Type} (K : Driver σ) (w : World σ)

theorem sys_open_cases (path : String) :
    ((sys_open K w path).2 = -1 ∧ (sys_open K w path).1.fds = w.fds ∧
        (sys_open K w path).1.peak = w.peak) ∨
    ((sys_open K w path).2 = (lowest_free w.fds : Int) ∧
        (sys_open K w path).1.fds = lowest_free w.fds :: w.fds ∧
        (sys_open K w path).1.peak = max w.peak (w.fds.length + 1)) := by
  unfold sys_open
  by_cases h : (K.open_ w.dev path).2 = true <;> simp [h]

theorem sys_close_fds (fd : Int) :
    (sys_close K w fd).1.fds = if is_open w.fds fd then w.fds.erase fd.toNat else w.fds := by
  unfold sys_close; split <;> rfl

@[simp] theorem sys_close_peak (fd : Int) : (sys_close K w fd).1.peak = w.peak := by
  unfold sys_close; split <;> rfl

theorem is_open_head (n : Nat) (T : List Nat) : is_open (n :: T) (n : Int) = true := by
  simp [is_open]

theorem sys_close_head (n : Nat) (T : List Nat) (h : w.fds = n :: T) :
    (sys_close K w (n : Int)).1.fds = T := by
  rw [sys_close_fds, h, is_open_head]
  simp

end accounting

/-! ## Spi_interface: what `disable` and `enable` leave behind -/

section spi_lifecycle

variable {σ : Type} (K : Driver σ) (w : World σ) (s : Spi_interface)

theorem disable_ret : (Spi_interface.disable K w s).2.2 = true := by
  unfold Spi_interface.disable; split <;> rfl

theorem disable_inst :
    (Spi_interface.disable K w s).2.1 = if 0 ≤ s.device_fd then { s with device_fd := -1 } else s := by
  unfold Spi_interface.disable; split <;> rfl

theorem disable_fds :
    (Spi_interface.disable K w s).1.fds =
      if is_open w.fds s.device_fd then w.fds.erase s.device_fd.toNat else w.fds := by
  unfold Spi_interface.disable
  by_cases h : 0 ≤ s.device_fd
  · simp only [h, if_true, sys_close_fds]
  · have : is_open w.fds s.device_fd = false := is_open_neg _ _ (by omega)
    simp [h, this]

theorem disable_peak : (Spi_interface.disable K w s).1.peak = w.peak := by
  unfold Spi_interface.disable; split <;> simp

theorem disable_fd_neg : (Spi_interface.disable K w s).2.1.device_fd < 0 := by
  rw [disable_inst]; split
  · show (-1 : Int) < 0
    decide
  · omega

theorem disable_closed (h : s.device_fd < 0) : Spi_interface.disable K w s = (w, s, true) := by
  unfold Spi_interface.disable
  have : ¬ 0 ≤ s.device_fd := by omega
  simp [this]

/-- After `disable` on a descriptor at the head of the table, the table is its tail. -/
theorem disable_head (n : Nat) (T : List Nat) (hs : s.device_fd = (n : Int))
    (h : w.fds = n :: T) : (Spi_interface.disable K w s).1.fds = T := by
  rw [disable_fds, hs, h, is_open_head]; simp

@[simp] theorem disable_device_name : (Spi_interface.disable K w s).2.1.device_name = s.device_name := by
  rw [disable_inst]; split <;> rfl

@[simp] theorem disable_spi_mode : (Spi_interface.disable K w s).2.1.spi_mode = s.spi_mode := by
  rw [disable_inst]; split <;> rfl

@[simp] theorem disable_spi_speed : (Spi_interface.disable K w s).2.1.spi_speed = s.spi_speed := by
  rw [disable_inst]; split <;> rfl

@[simp] theorem disable_spi_bits_per_word :
    (Spi_interface.disable K w s).2.1.spi_bits_per_word = s.spi_bits_per_word := by
  rw [disable_inst]; split <;> rfl

@[simp] theorem disable_transfer_structs :
    (Spi_interface.disable K w s).2.1.transfer_structs = s.transfer_structs := by
  rw [disable_inst]; split <;> rfl

theorem disable_open_inst (h : 0 ≤ s.device_fd) :
    (Spi_interface.disable K w s).2.1 = { s with device_fd := -1 } := by
  rw [disable_inst, if_pos h]

/-- Closing a freshly configured descriptor: the step `disable(); return false` of `enable`. -/
theorem disable_after_open (n : Nat) (T : List Nat) (w1 : World σ) (h : w1.fds = n :: T) :
    (Spi_interface.disable K w1 { s with device_fd := (n : Int) }).2.1 = { s with device_fd := -1 } ∧
    (Spi_interface.disable K w1 { s with device_fd := (n : Int) }).1.fds = T ∧
    (Spi_interface.disable K w1 { s with device_fd := (n : Int) }).1.peak = w1.peak := by
  refine ⟨?_, ?_, disable_peak _ _ _⟩
  · rw [disable_open_inst]
    exact Int.ofNat_nonneg n
  · exact disable_head K w1 _ n T rfl h

theorem enable_outcome :
    ((Spi_interface.enable K w s).2.2 = false ∧
      (Spi_interface.enable K w s).2.1 = { s with device_fd := -1 } ∧
      (Spi_interface.enable K w s).1.fds = (Spi_interface.disable K w s).1.fds ∧
      (Spi_interface.enable K w s).1.peak ≤
        max w.peak ((Spi_interface.disable K w s).1.fds.length + 1)) ∨
    ((Spi_interface.enable K w s).2.2 = true ∧
      (Spi_interface.enable K w s).2.1 =
        { s with device_fd := (lowest_free (Spi_interface.disable K w s).1.fds : Int) } ∧
      (Spi_interface.enable K w s).1.fds =
        lowest_free (Spi_interface.disable K w s).1.fds :: (Spi_interface.disable K w s).1.fds ∧
      (Spi_interface.enable K w s).1.peak =
        max w.peak ((Spi_interface.disable K w s).1.fds.length + 1)) := by
  unfold Spi_interface.enable
  simp only [disable_device_name, disable_spi_mode, disable_spi_speed, disable_spi_bits_per_word,
    disable_transfer_structs]
  rcases sys_open_cases K (Spi_interface.disable K w s).1 s.device_name with
    ⟨h2, hf, hp⟩ | ⟨h2, hf, hp⟩
  · left
    simp only [h2]
    simp [hf, hp, disable_peak]
  · simp only [h2]
    have hn : ¬ ((lowest_free (Spi_interface.disable K w s).1.fds : Int) < 0) := by omega
    rw [if_neg hn]
    generalize (sys_open K (Spi_interface.disable K w s).1 s.device_name).1 = w1 at hf hp ⊢
    generalize hn' : lowest_free (Spi_interface.disable K w s).1.fds = n at hf hn ⊢
    generalize hT : (Spi_interface.disable K w s).1.fds = T at hf hp ⊢
    have hdp : (Spi_interface.disable K w s).1.peak = w.peak := disable_peak K w s
    rw [hdp] at hp
    by_cases hc1 : (sys_ioctl K w1 n (IoctlReq.SPI_IOC_WR_MODE s.spi_mode)).2 < 0
    · rw [if_pos hc1]
      obtain ⟨e1, e2, e3⟩ := disable_after_open K s n T
        (sys_ioctl K w1 n (IoctlReq.SPI_IOC_WR_MODE s.spi_mode)).1 (by simp [hf])
      left
      refine ⟨rfl, e1, e2, ?_⟩
      simp only [e3, sys_ioctl_peak, hp]; exact le_refl _
    · rw [if_neg hc1]
      have hf2 : (sys_ioctl K w1 n (IoctlReq.SPI_IOC_WR_MODE s.spi_mode)).1.fds = n :: T := by
        simp [hf]
      have hp2 : (sys_ioctl K w1 n (IoctlReq.SPI_IOC_WR_MODE s.spi_mode)).1.peak =
          max w.peak (T.length + 1) := by
        simp [hp]
      generalize (sys_ioctl K w1 n (IoctlReq.SPI_IOC_WR_MODE s.spi_mode)).1 = w2 at hf2 hp2 ⊢
      by_cases hc2 : (sys_ioctl K w2 n (IoctlReq.SPI_IOC_WR_BITS_PER_WORD s.spi_bits_per_word)).2 < 0
      · rw [if_pos hc2]
        obtain ⟨e1, e2, e3⟩ := disable_after_open K s n T
          (sys_ioctl K w2 n (IoctlReq.SPI_IOC_WR_BITS_PER_WORD s.spi_bits_per_word)).1
          (by simp [hf2])
        left
        refine ⟨rfl, e1, e2, ?_⟩
        simp only [e3, sys_ioctl_peak, hp2]; exact le_refl _
      · rw [if_neg hc2]
        have hf3 : (sys_ioctl K w2 n
            (IoctlReq.SPI_IOC_WR_BITS_PER_WORD s.spi_bits_per_word)).1.fds = n :: T := by
          simp [hf2]
        have hp3 : (sys_ioctl K w2 n
            (IoctlReq.SPI_IOC_WR_BITS_PER_WORD s.spi_bits_per_word)).1.peak =
            max w.peak (T.length + 1) := by
          simp [hp2]
        generalize (sys_ioctl K w2 n
          (IoctlReq.SPI_IOC_WR_BITS_PER_WORD s.spi_bits_per_word)).1 = w3 at hf3 hp3 ⊢
        by_cases hc3 : (sys_ioctl K w3 n (IoctlReq.SPI_IOC_WR_MAX_SPEED_HZ s.spi_speed)).2 < 0
        · rw [if_pos hc3]
          obtain ⟨e1, e2, e3⟩ := disable_after_open K s n T
            (sys_ioctl K w3 n (IoctlReq.SPI_IOC_WR_MAX_SPEED_HZ s.spi_speed)).1 (by simp [hf3])
          left
          refine ⟨rfl, e1, e2, ?_⟩
          simp only [e3, sys_ioctl_peak, hp3]; exact le_refl _
        · rw [if_neg hc3]
          right
          refine ⟨rfl, rfl, ?_, ?_⟩
          · simp [hf3]
          · simp [hp3]

end spi_lifecycle

/-! ## Failed open attempts -/

/-- C5, counterexample. A `LeptonI2cIf` is constructed in a world without descriptors, over a
driver that opens every node and grants one address bind. The first `initialise` succeeds on
descriptor 0. In the second the open is granted (descriptor 1) and the bind is refused: the
call closes descriptor 1, sets the field to -1 and returns false, but descriptor 0, opened by
the instance, is still open. -/
theorem initialise_failure_keeps_prior_descriptor :
    (LeptonI2cIf.initialise binding (World.fresh 1) (LeptonI2cIf.new 1)).map
        (fun r => (r.2.2, r.2.1.device_file, r.1.fds)) = some (true, 0, [0]) ∧
    (LeptonI2cIf.initialise_twice binding (World.fresh 1) (LeptonI2cIf.new 1)).map
        (fun r => (r.2.2, r.2.1.device_file, r.1.fds)) = some (false, -1, [0]) ∧
    (LeptonI2cIf.initialise_twice binding (World.fresh 1) (LeptonI2cIf.new 1)).map
        (fun r => r.1.trace) =
      some [Syscall.open_ (LeptonI2cIf.device_path 1),
            Syscall.ioctl 0 (IoctlReq.I2C_SLAVE LEPTON_CCI_ADDRESS),
            Syscall.open_ (LeptonI2cIf.device_path 1),
            Syscall.ioctl 1 (IoctlReq.I2C_SLAVE LEPTON_CCI_ADDRESS),
            Syscall.close 1] :=
  ⟨rfl, rfl, rfl⟩

/-- C5 as amended. (1) Whenever `LeptonI2cIf::initialise` returns false, the descriptor field
holds -1 and the table of open descriptors is what it was before the call: the descriptor the
attempt opened is closed again (a descriptor held before the call is not closed). (2) It does
return false whenever the open is granted and the address bind is refused; the path on which
the open itself fails has no defined outcome and is not covered. (3) Whenever
`Spi_interface::enable` returns false, the descriptor field holds -1 and the table is the
prior table without the descriptor the instance held: nothing of the instance remains open. -/
theorem failed_open_leaves_handle_closed {σ : Type} (K : Driver σ) (w : World σ) :
    (∀ (s : LeptonI2cIf) (r : World σ × LeptonI2cIf × Bool),
      LeptonI2cIf.initialise K w s = some r → r.2.2 = false →
      r.2.1.device_file = -1 ∧ r.1.fds = w.fds) ∧
    (∀ s : LeptonI2cIf,
      0 ≤ (sys_open K w (LeptonI2cIf.device_path s.bus_number)).2 →
      (sys_ioctl K (sys_open K w (LeptonI2cIf.device_path s.bus_number)).1
          (sys_open K w (LeptonI2cIf.device_path s.bus_number)).2
          (IoctlReq.I2C_SLAVE LEPTON_CCI_ADDRESS)).2 < 0 →
      ∃ r, LeptonI2cIf.initialise K w s = some r ∧ r.2.2 = false) ∧
    (∀ s : Spi_interface, (Spi_interface.enable K w s).2.2 = false →
      (Spi_interface.enable K w s).2.1.device_fd = -1 ∧
      (Spi_interface.enable K w s).1.fds =
        if is_open w.fds s.device_fd then w.fds.erase s.device_fd.toNat else w.fds) := by
  refine ⟨?_, ?_, ?_⟩
  · intro s r
    unfold LeptonI2cIf.initialise
    simp only
    rcases sys_open_cases K w (LeptonI2cIf.device_path s.bus_number) with
      ⟨h2, _, _⟩ | ⟨h2, hf, _⟩
    · intro h
      simp [h2] at h
    · simp only [h2]
      have hn : ¬ ((lowest_free w.fds : Int) < 0) := by omega
      rw [if_neg hn]
      split
      · intro h _
        injection h with h
        subst h
        refine ⟨rfl, ?_⟩
        simp only
        apply sys_close_head
        simp [hf]
      · intro h hr
        injection h with h
        subst h
        simp at hr
  · intro s ho hc
    unfold LeptonI2cIf.initialise
    simp only
    rw [if_neg (by omega), if_pos hc]
    exact ⟨_, rfl, rfl⟩
  · intro s h
    rcases enable_outcome K w s with ⟨_, e1, e2, _⟩ | ⟨e0, _⟩
    · rw [e1, e2, disable_fds]
      exact ⟨rfl, rfl⟩
    · rw [e0] at h
      cases h

/-- Witness of C5 as amended: on a driver that opens the node and refuses the address bind, a
freshly constructed `LeptonI2cIf` returns false with the field at -1 and no descriptor open;
on a driver that grants no open, a `Spi_interface` holding descriptor 3 returns false with
the field at -1 and no descriptor open. -/
theorem failed_open_leaves_handle_closed_witness :
    (LeptonI2cIf.initialise binding (World.fresh 0) (LeptonI2cIf.new 1)).map
        (fun r => (r.2.2, r.2.1.device_file, r.1.fds)) = some (false, -1, []) ∧
    ((Spi_interface.enable granting (World.with3 0) Spi_interface.on3).2.1.device_fd = -1 ∧
      (Spi_interface.enable granting (World.with3 0) Spi_interface.on3).1.fds = []) := by
  refine ⟨?_, (failed_open_leaves_handle_closed granting (World.with3 0)).2.2
    Spi_interface.on3 rfl⟩
  obtain ⟨r, hr, hf⟩ := (failed_open_leaves_handle_closed binding (World.fresh 0)).2.1
    (LeptonI2cIf.new 1) (by decide) (by decide)
  obtain ⟨h1, h2⟩ := (failed_open_leaves_handle_closed binding (World.fresh 0)).1
    (LeptonI2cIf.new 1) r hr hf
  rw [hr]
  simp only [Option.map_some']
  rw [hf, h1, h2]
  rfl

/-! ## Spi_interface: descriptor accounting over call sequences -/

section spi_frame
variable {σ : Type} (K : Driver σ) (w : World σ) (s : Spi_interface)

theorem write_frame (tx n : Nat) :
    (Spi_interface.write K w s tx n).1.fds = w.fds ∧
    (Spi_interface.write K w s tx n).1.peak = w.peak ∧
    (Spi_interface.write K w s tx n).2.1.device_fd = s.device_fd := by
  unfold Spi_interface.write; split <;> simp

theorem transfer_frame (tx rx n : Nat) :
    (Spi_interface.transfer K w s tx rx n).1.fds = w.fds ∧
    (Spi_interface.transfer K w s tx rx n).1.peak = w.peak ∧
    (Spi_interface.transfer K w s tx rx n).2.1.device_fd = s.device_fd := by
  unfold Spi_interface.transfer; split <;> simp

theorem write_then_read_frame (tx n rx m : Nat) :
    (Spi_interface.write_then_read K w s tx n rx m).1.fds = w.fds ∧
    (Spi_interface.write_then_read K w s tx n rx m).1.peak = w.peak ∧
    (Spi_interface.write_then_read K w s tx n rx m).2.1.device_fd = s.device_fd := by
  unfold Spi_interface.write_then_read; split <;> simp

end spi_frame

section accounted
variable {σ : Type} (K : Driver σ)

theorem accounted_disable_fds {T : List Nat} {P : Nat} {w : World σ} {s : Spi_interface}
    (h : Accounted T P w s) : (Spi_interface.disable K w s).1.fds = T := by
  obtain ⟨hf, _⟩ := h
  by_cases hfd : 0 ≤ s.device_fd
  · rw [if_pos hfd] at hf
    exact disable_head K w s s.device_fd.toNat T (Int.toNat_of_nonneg hfd).symm hf
  · rw [if_neg hfd] at hf
    rw [disable_closed K w s (by omega)]
    simpa using hf

theorem accounted_call {T : List Nat} {P : Nat} {w : World σ} {s : Spi_interface}
    (h : Accounted T P w s) (c : SpiCall) :
    Accounted T P (Spi_interface.call K w s c).1 (Spi_interface.call K w s c).2.1 := by
  have hD := accounted_disable_fds K h
  obtain ⟨hf, hp⟩ := h
  cases c with
  | enable =>
    simp only [Spi_interface.call]
    rcases enable_outcome K w s with ⟨_, e1, e2, e3⟩ | ⟨_, e1, e2, e3⟩
    · rw [hD] at e2 e3
      refine ⟨?_, ?_⟩
      · rw [e1, e2]; simp
      · omega
    · rw [hD] at e1 e2 e3
      refine ⟨?_, ?_⟩
      · rw [e1, e2]; simp
      · omega
  | disable =>
    simp only [Spi_interface.call]
    refine ⟨?_, ?_⟩
    · rw [hD]
      have := disable_fd_neg K w s
      have hn : ¬ 0 ≤ (Spi_interface.disable K w s).2.1.device_fd := by omega
      rw [if_neg hn]; rfl
    · rw [disable_peak]; exact hp
  | write tx n =>
    obtain ⟨a, b, c⟩ := write_frame K w s tx n
    simp only [Spi_interface.call]
    exact ⟨by rw [a, c]; exact hf, by rw [b]; exact hp⟩
  | transfer tx rx n =>
    obtain ⟨a, b, c⟩ := transfer_frame K w s tx rx n
    simp only [Spi_interface.call]
    exact ⟨by rw [a, c]; exact hf, by rw [b]; exact hp⟩
  | write_then_read tx n rx m =>
    obtain ⟨a, b, c⟩ := write_then_read_frame K w s tx n rx m
    simp only [Spi_interface.call]
    exact ⟨by rw [a, c]; exact hf, by rw [b]; exact hp⟩

theorem accounted_run {T : List Nat} {P : Nat} (cs : List SpiCall) :
    ∀ {w : World σ} {s : Spi_interface}, Accounted T P w s →
      Accounted T P (Spi_interface.run K w s cs).1 (Spi_interface.run K w s cs).2 := by
  induction cs with
  | nil => intro w s h; exact h
  | cons c cs ih =>
    intro w s h
    simp only [Spi_interface.run]
    exact ih (accounted_call K h c)

theorem accounted_initialise (w : World σ) (bus chan mode speed bits : Nat) :
    Accounted w.fds w.peak w (Spi_interface.initialise bus chan mode speed bits) := by
  refine ⟨?_, ?_⟩
  · simp [Spi_interface.initialise]
  · omega

end accounted

/-- Two consecutive `enable` calls against one: when the second returns what the first
returned, instance and table are those the first left. -/
theorem enable_twice {σ : Type} (K : Driver σ) (w : World σ) (s : Spi_interface) :
    (Spi_interface.enable K (Spi_interface.enable K w s).1
        (Spi_interface.enable K w s).2.1).2.2 = (Spi_interface.enable K w s).2.2 →
    (Spi_interface.enable K (Spi_interface.enable K w s).1
        (Spi_interface.enable K w s).2.1).2.1 = (Spi_interface.enable K w s).2.1 ∧
    (Spi_interface.enable K (Spi_interface.enable K w s).1
        (Spi_interface.enable K w s).2.1).1.fds = (Spi_interface.enable K w s).1.fds ∧
    ((Spi_interface.enable K w s).2.2 = true →
      is_open (Spi_interface.enable K (Spi_interface.enable K w s).1
          (Spi_interface.enable K w s).2.1).1.fds
        (Spi_interface.enable K (Spi_interface.enable K w s).1
          (Spi_interface.enable K w s).2.1).2.1.device_fd = true ∧
      (Spi_interface.enable K (Spi_interface.enable K w s).1
          (Spi_interface.enable K w s).2.1).1.fds =
        (Spi_interface.enable K (Spi_interface.enable K w s).1
          (Spi_interface.enable K w s).2.1).2.1.device_fd.toNat ::
          (Spi_interface.disable K w s).1.fds) := by
  generalize hD : (Spi_interface.disable K w s).1.fds = D
  rcases enable_outcome K w s with ⟨r1, e1, e2, _⟩ | ⟨r1, e1, e2, _⟩
  · rw [hD] at e2
    generalize Spi_interface.enable K w s = x at r1 e1 e2 ⊢
    obtain ⟨w1, s1, b1⟩ := x
    simp only at r1 e1 e2 ⊢
    subst r1 e1
    have hd : (Spi_interface.disable K w1 { s with device_fd := -1 }).1.fds = D := by
      rw [disable_closed K w1 _ (show (-1 : Int) < 0 by decide)]; exact e2
    rcases enable_outcome K w1 { s with device_fd := -1 } with
      ⟨_, f1, f2, _⟩ | ⟨r2, _⟩
    · intro _
      refine ⟨f1, ?_, ?_⟩
      · rw [f2, hd, e2]
      · intro h; cases h
    · intro h; rw [r2] at h; cases h
  · rw [hD] at e1 e2
    generalize Spi_interface.enable K w s = x at r1 e1 e2 ⊢
    obtain ⟨w1, s1, b1⟩ := x
    simp only at r1 e1 e2 ⊢
    subst r1 e1
    have hd : (Spi_interface.disable K w1 { s with device_fd := (lowest_free D : Int) }).1.fds
        = D := (disable_after_open K s (lowest_free D) D w1 e2).2.1
    rcases enable_outcome K w1 { s with device_fd := (lowest_free D : Int) } with
      ⟨r2, _⟩ | ⟨_, f1, f2, _⟩
    · intro h; rw [r2] at h; cases h
    · intro _
      rw [hd] at f1 f2
      refine ⟨f1, ?_, ?_⟩
      · rw [f2, e2]
      · intro _
        rw [f1, f2]
        exact ⟨is_open_head _ _, by simp⟩

theorem sys_ioctl_echo_config (w : World Unit) (n : Nat) (req : IoctlReq)
    (h : is_open w.fds (n : Int) = true) (hreq : ∀ segs, req ≠ IoctlReq.SPI_IOC_MESSAGE segs) :
    (sys_ioctl echo w (n : Int) req).2 = 0 := by
  unfold sys_ioctl
  cases req with
  | SPI_IOC_MESSAGE segs => exact absurd rfl (hreq segs)
  | _ => simp [h, echo]

/-- On the echoing peripheral every open and every configuration step succeeds. -/
theorem enable_echo_ret (w : World Unit) (s : Spi_interface) :
    (Spi_interface.enable echo w s).2.2 = true := by
  have ho : ∀ (w0 : World Unit) (p : String),
      (sys_open echo w0 p).2 = (lowest_free w0.fds : Int) ∧
      (sys_open echo w0 p).1.fds = lowest_free w0.fds :: w0.fds := by
    intro w0 p; simp [sys_open, echo]
  unfold Spi_interface.enable
  simp only [disable_device_name, disable_spi_mode, disable_spi_speed, disable_spi_bits_per_word,
    disable_transfer_structs]
  obtain ⟨h2, hf⟩ := ho (Spi_interface.disable echo w s).1 s.device_name
  simp only [h2]
  have hn : ¬ ((lowest_free (Spi_interface.disable echo w s).1.fds : Int) < 0) := by omega
  rw [if_neg hn]
  generalize (sys_open echo (Spi_interface.disable echo w s).1 s.device_name).1 = w1 at hf ⊢
  generalize lowest_free (Spi_interface.disable echo w s).1.fds = n at hf ⊢
  generalize (Spi_interface.disable echo w s).1.fds = T at hf ⊢
  have hop : ∀ (w' : World Unit), w'.fds = n :: T → is_open w'.fds (n : Int) = true := by
    intro w' h; rw [h]; exact is_open_head n T
  have e1 := sys_ioctl_echo_config w1 n (IoctlReq.SPI_IOC_WR_MODE s.spi_mode) (hop _ hf)
    (by intro _ h; cases h)
  rw [e1, if_neg (by decide)]
  have hf2 : (sys_ioctl echo w1 n (IoctlReq.SPI_IOC_WR_MODE s.spi_mode)).1.fds = n :: T := by
    simp [hf]
  generalize (sys_ioctl echo w1 n (IoctlReq.SPI_IOC_WR_MODE s.spi_mode)).1 = w2 at hf2 ⊢
  have e2 := sys_ioctl_echo_config w2 n (IoctlReq.SPI_IOC_WR_BITS_PER_WORD s.spi_bits_per_word)
    (hop _ hf2) (by intro _ h; cases h)
  rw [e2, if_neg (by decide)]
  have hf3 : (sys_ioctl echo w2 n
      (IoctlReq.SPI_IOC_WR_BITS_PER_WORD s.spi_bits_per_word)).1.fds = n :: T := by
    simp [hf2]
  generalize (sys_ioctl echo w2 n
      (IoctlReq.SPI_IOC_WR_BITS_PER_WORD s.spi_bits_per_word)).1 = w3 at hf3 ⊢
  have e3 := sys_ioctl_echo_config w3 n (IoctlReq.SPI_IOC_WR_MAX_SPEED_HZ s.spi_speed)
    (hop _ hf3) (by intro _ h; cases h)
  rw [e3, if_neg (by decide)]

/-- C6. For every driver and every world: (1) after any sequence of calls on a constructed
instance the table of open descriptors is the table at construction plus at most one
descriptor, and it never held more than one beyond it; (2) when a second consecutive
`enable` returns what the first returned, it leaves the same instance state (descriptor
field and configuration) and the same table as the first alone, and after success that
state is open with exactly one descriptor on top of what `disable` left; (3) on the echoing
peripheral, where every open and configuration step succeeds, the second `enable` succeeds
and leaves the instance and the table exactly as the first did. -/
theorem enable_idempotent_without_leak {σ : Type} (K : Driver σ) (w : World σ) :
    (∀ (bus chan mode speed bits : Nat) (cs : List SpiCall),
      (∃ owned : List Nat, owned.length ≤ 1 ∧
        (Spi_interface.run K w (Spi_interface.new bus chan mode speed bits) cs).1.fds
          = owned ++ w.fds) ∧
      (Spi_interface.run K w (Spi_interface.new bus chan mode speed bits) cs).1.peak
        ≤ max w.peak (w.fds.length + 1)) ∧
    (∀ s : Spi_interface,
      (Spi_interface.enable K (Spi_interface.enable K w s).1
          (Spi_interface.enable K w s).2.1).2.2 = (Spi_interface.enable K w s).2.2 →
      (Spi_interface.enable K (Spi_interface.enable K w s).1
          (Spi_interface.enable K w s).2.1).2.1 = (Spi_interface.enable K w s).2.1 ∧
      (Spi_interface.enable K (Spi_interface.enable K w s).1
          (Spi_interface.enable K w s).2.1).1.fds = (Spi_interface.enable K w s).1.fds ∧
      ((Spi_interface.enable K w s).2.2 = true →
        is_open (Spi_interface.enable K (Spi_interface.enable K w s).1
            (Spi_interface.enable K w s).2.1).1.fds
          (Spi_interface.enable K (Spi_interface.enable K w s).1
            (Spi_interface.enable K w s).2.1).2.1.device_fd = true ∧
        (Spi_interface.enable K (Spi_interface.enable K w s).1
            (Spi_interface.enable K w s).2.1).1.fds =
          (Spi_interface.enable K (Spi_interface.enable K w s).1
            (Spi_interface.enable K w s).2.1).2.1.device_fd.toNat ::
            (Spi_interface.disable K w s).1.fds)) ∧
    (∀ (v : World Unit) (s : Spi_interface),
      (Spi_interface.enable echo (Spi_interface.enable echo v s).1
          (Spi_interface.enable echo v s).2.1).2.2 = true ∧
      (Spi_interface.enable echo (Spi_interface.enable echo v s).1
          (Spi_interface.enable echo v s).2.1).2.1 = (Spi_interface.enable echo v s).2.1 ∧
      (Spi_interface.enable echo (Spi_interface.enable echo v s).1
          (Spi_interface.enable echo v s).2.1).1.fds = (Spi_interface.enable echo v s).1.fds ∧
      (Spi_interface.enable echo v s).1.fds =
        (Spi_interface.enable echo v s).2.1.device_fd.toNat ::
          (Spi_interface.disable echo v s).1.fds) := by
  refine ⟨?_, fun s => enable_twice K w s, ?_⟩
  · intro bus chan mode speed bits cs
    obtain ⟨hf, hp⟩ := accounted_run K cs (accounted_initialise w bus chan mode speed bits)
    refine ⟨⟨_, ?_, hf⟩, hp⟩
    split <;> simp
  · intro v s
    have r1 := enable_echo_ret v s
    have r2 := enable_echo_ret (Spi_interface.enable echo v s).1
      (Spi_interface.enable echo v s).2.1
    obtain ⟨a, b, c⟩ := enable_twice echo v s (by rw [r1, r2])
    obtain ⟨_, c2⟩ := c r1
    refine ⟨r2, a, b, ?_⟩
    rw [b, a] at c2
    exact c2

/-- Witness of C6 on the echoing peripheral: two `enable` calls on a freshly constructed
instance in a world without descriptors leave descriptor 0 open, as one call does. -/
theorem enable_idempotent_without_leak_witness :
    (Spi_interface.enable echo (Spi_interface.enable echo (World.fresh ())
        (Spi_interface.new_default 0 0)).1
        (Spi_interface.enable echo (World.fresh ()) (Spi_interface.new_default 0 0)).2.1).2.1
      = (Spi_interface.enable echo (World.fresh ()) (Spi_interface.new_default 0 0)).2.1 ∧
    (Spi_interface.enable echo (Spi_interface.enable echo (World.fresh ())
        (Spi_interface.new_default 0 0)).1
        (Spi_interface.enable echo (World.fresh ()) (Spi_interface.new_default 0 0)).2.1).1.fds
      = [0] ∧
    (Spi_interface.run echo (World.fresh ()) (Spi_interface.new 0 0 3 11000000 8)
        [SpiCall.enable, SpiCall.write 1 1, SpiCall.enable]).1.peak ≤ 1 :=
  ⟨((enable_idempotent_without_leak echo (World.fresh ())).2.1
      (Spi_interface.new_default 0 0) rfl).1,
   ((enable_idempotent_without_leak echo (World.fresh ())).2.1
      (Spi_interface.new_default 0 0) rfl).2.1,
   ((enable_idempotent_without_leak echo (World.fresh ())).1 0 0 3 11000000 8
      [SpiCall.enable, SpiCall.write 1 1, SpiCall.enable]).2⟩

/-! ## Spi_interface: transfers -/

/-- C7. A call whose precondition fails returns false and leaves the world (no system call,
memory untouched) and the instance (descriptor field, configuration, transfer descriptors)
exactly as they were: `write` when the handle is closed, `tx` is null or the length is 0;
`transfer` also when `rx` is null; `write_then_read` when the handle is closed, either buffer
is null or either length is 0. -/
theorem precondition_rejection {σ : Type} (K : Driver σ) (w : World σ) (s : Spi_interface) :
    (∀ tx n : Nat, s.device_fd < 0 ∨ tx = 0 ∨ n = 0 →
      Spi_interface.write K w s tx n = (w, s, false)) ∧
    (∀ tx rx n : Nat, s.device_fd < 0 ∨ tx = 0 ∨ rx = 0 ∨ n = 0 →
      Spi_interface.transfer K w s tx rx n = (w, s, false)) ∧
    (∀ tx n rx m : Nat, s.device_fd < 0 ∨ tx = 0 ∨ n = 0 ∨ rx = 0 ∨ m = 0 →
      Spi_interface.write_then_read K w s tx n rx m = (w, s, false)) := by
  refine ⟨?_, ?_, ?_⟩
  · intro tx n h
    unfold Spi_interface.write; rw [if_pos h]
  · intro tx rx n h
    unfold Spi_interface.transfer; rw [if_pos h]
  · intro tx n rx m h
    unfold Spi_interface.write_then_read; rw [if_pos h]

/-- Witness of C7: `write(null, 0)`, `transfer(tx, null, 1)` and `write_then_read(tx, 2, rx, 0)`
on an open instance over the echoing peripheral. -/
theorem precondition_rejection_witness :
    Spi_interface.write echo (World.with3 ()) Spi_interface.on3 0 0
      = (World.with3 (), Spi_interface.on3, false) ∧
    Spi_interface.transfer echo (World.with3 ()) Spi_interface.on3 100 0 1
      = (World.with3 (), Spi_interface.on3, false) ∧
    Spi_interface.write_then_read echo (World.with3 ()) Spi_interface.on3 100 2 200 0
      = (World.with3 (), Spi_interface.on3, false) :=
  ⟨(precondition_rejection echo (World.with3 ()) Spi_interface.on3).1 0 0
      (Or.inr (Or.inl rfl)),
   (precondition_rejection echo (World.with3 ()) Spi_interface.on3).2.1 100 0 1
      (Or.inr (Or.inr (Or.inl rfl))),
   (precondition_rejection echo (World.with3 ()) Spi_interface.on3).2.2 100 2 200 0
      (Or.inr (Or.inr (Or.inr (Or.inr rfl))))⟩

section stamped
variable {σ : Type} (K : Driver σ)

end stamped


theorem read_back (m : Mem) (p : Nat) (bs : List Nat) :
    read_bytes (write_bytes m p bs) p bs.length = bs := by
  apply List.ext_getElem
  · simp [read_bytes]
  · intro i h1 h2
    have hi : i < bs.length := h2
    simp [read_bytes, write_bytes, hi, List.getD_eq_getElem?_getD]

theorem read_bytes_length (m : Mem) (p n : Nat) : (read_bytes m p n).length = n := by
  simp [read_bytes]

/-- C9. On an open handle, with non-null buffers and a nonzero length, `transfer` issues
exactly one system call: a message ioctl of a single segment whose transmit buffer is `tx`,
receive buffer is `rx` and length is `n`. On the echoing peripheral the call returns true and
afterwards the `n` bytes at `rx` are the `n` bytes that were at `tx`. -/
theorem transfer_echo :
    (∀ (σ : Type) (K : Driver σ) (w : World σ) (s : Spi_interface) (tx rx n : Nat),
      0 ≤ s.device_fd → tx ≠ 0 → rx ≠ 0 → n ≠ 0 →
      (Spi_interface.transfer K w s tx rx n).1.trace =
        w.trace ++ [Syscall.ioctl s.device_fd (IoctlReq.SPI_IOC_MESSAGE
          [{ s.transfer_structs.1 with tx_buf := tx, rx_buf := rx, len := n }])]) ∧
    (∀ (w : World Unit) (s : Spi_interface) (tx rx n : Nat),
      is_open w.fds s.device_fd = true → tx ≠ 0 → rx ≠ 0 → n ≠ 0 →
      (Spi_interface.transfer echo w s tx rx n).2.2 = true ∧
      read_bytes (Spi_interface.transfer echo w s tx rx n).1.mem rx n
        = read_bytes w.mem tx n) := by
  constructor
  · intro σ K w s tx rx n hopen htx hrx hn
    have hc : ¬ (s.device_fd < 0 ∨ tx = 0 ∨ rx = 0 ∨ n = 0) := by
      rintro (h | h | h | h)
      · omega
      · exact htx h
      · exact hrx h
      · exact hn h
    unfold Spi_interface.transfer
    rw [if_neg hc]
    simp only [sys_ioctl_trace]
  · intro w s tx rx n hopen htx hrx hn
    have hfd : 0 ≤ s.device_fd := by
      by_contra h
      rw [is_open_neg _ _ (by omega)] at hopen
      cases hopen
    have hc : ¬ (s.device_fd < 0 ∨ tx = 0 ∨ rx = 0 ∨ n = 0) := by
      rintro (h | h | h | h)
      · omega
      · exact htx h
      · exact hrx h
      · exact hn h
    unfold Spi_interface.transfer
    rw [if_neg hc]
    simp only [sys_ioctl, hopen, if_true, echo, List.foldl, echo_segment, htx, hrx, if_false]
    refine ⟨by simp, ?_⟩
    have := read_back w.mem rx (read_bytes w.mem tx n)
    rw [read_bytes_length] at this
    exact this

/-- Witness of C9: `tx = [0xA5]` at address 100, `length = 1`, `rx` at address 200 on the
echoing peripheral gives `rx = [0xA5]`. -/
theorem transfer_echo_witness :
    (Spi_interface.transfer echo World.a5 Spi_interface.on3 100 200 1).2.2 = true ∧
    read_bytes (Spi_interface.transfer echo World.a5 Spi_interface.on3 100 200 1).1.mem 200 1
      = [0xA5] ∧
    (Spi_interface.transfer echo World.a5 Spi_interface.on3 100 200 1).1.trace =
      [] ++ [Syscall.ioctl 3 (IoctlReq.SPI_IOC_MESSAGE
        [{ tx_buf := 100, rx_buf := 200, len := 1, speed_hz := 11000000, delay_usecs := 0,
           bits_per_word := 8 }])] :=
  ⟨(transfer_echo.2 World.a5 Spi_interface.on3 100 200 1 (by decide) (by decide) (by decide)
      (by decide)).1,
   (transfer_echo.2 World.a5 Spi_interface.on3 100 200 1 (by decide) (by decide) (by decide)
      (by decide)).2,
   transfer_echo.1 Unit echo World.a5 Spi_interface.on3 100 200 1 (by decide) (by decide)
      (by decide) (by decide)⟩


/-! ## Spi_interface: after `disable` -/

section closed
variable {σ : Type} (K : Driver σ)

theorem closed_call {w : World σ} {s : Spi_interface} (h : s.device_fd < 0) (c : SpiCall)
    (hc : c = SpiCall.enable → (Spi_interface.call K w s c).2.2 = false) :
    (Spi_interface.call K w s c).2.1.device_fd < 0 := by
  cases c with
  | enable =>
    have hf := hc rfl
    simp only [Spi_interface.call] at hf ⊢
    rcases enable_outcome K w s with ⟨_, e, _⟩ | ⟨r, _⟩
    · rw [e]; show (-1 : Int) < 0; decide
    · rw [r] at hf; cases hf
  | disable => exact disable_fd_neg K w s
  | write tx n =>
    simp only [Spi_interface.call, (write_frame K w s tx n).2.2]; exact h
  | transfer tx rx n =>
    simp only [Spi_interface.call, (transfer_frame K w s tx rx n).2.2]; exact h
  | write_then_read tx n rx m =>
    simp only [Spi_interface.call, (write_then_read_frame K w s tx n rx m).2.2]; exact h

theorem closed_run (cs : List SpiCall) :
    ∀ (w : World σ) (s : Spi_interface), s.device_fd < 0 →
      Spi_interface.no_successful_enable K w s cs →
      (Spi_interface.run K w s cs).2.device_fd < 0 := by
  induction cs with
  | nil => intro w s h _; exact h
  | cons c cs ih =>
    intro w s h hn
    simp only [Spi_interface.run]
    exact ih _ _ (closed_call K h c hn.1) hn.2

end closed

/-- C10. From every state `disable` returns true, leaves the descriptor field invalid and
the table of open descriptors without the descriptor the instance held; after it, following
any sequence of calls in which no `enable` succeeded, `write` returns false and leaves the
world (no system call) and the instance as they were. -/
theorem disable_then_write_fails {σ : Type} (K : Driver σ) (w : World σ) (s : Spi_interface) :
    (Spi_interface.disable K w s).2.2 = true ∧
    (Spi_interface.disable K w s).2.1.device_fd < 0 ∧
    (Spi_interface.disable K w s).1.fds =
      (if is_open w.fds s.device_fd then w.fds.erase s.device_fd.toNat else w.fds) ∧
    ∀ cs : List SpiCall,
      Spi_interface.no_successful_enable K (Spi_interface.disable K w s).1
        (Spi_interface.disable K w s).2.1 cs →
      ∀ tx n : Nat,
        Spi_interface.write K
          (Spi_interface.run K (Spi_interface.disable K w s).1
            (Spi_interface.disable K w s).2.1 cs).1
          (Spi_interface.run K (Spi_interface.disable K w s).1
            (Spi_interface.disable K w s).2.1 cs).2 tx n =
        ((Spi_interface.run K (Spi_interface.disable K w s).1
            (Spi_interface.disable K w s).2.1 cs).1,
         (Spi_interface.run K (Spi_interface.disable K w s).1
            (Spi_interface.disable K w s).2.1 cs).2, false) := by
  refine ⟨disable_ret K w s, disable_fd_neg K w s, disable_fds K w s, ?_⟩
  intro cs hcs tx n
  have h := closed_run K cs _ _ (disable_fd_neg K w s) hcs
  unfold Spi_interface.write
  rw [if_pos (Or.inl h)]

/-- Witness of C10: an open instance is disabled, then a `transfer`, a second `disable` and
an `enable` refused by the driver follow; the next `write` of 4 bytes is rejected. -/
theorem disable_then_write_fails_witness :
    Spi_interface.write granting
        (Spi_interface.run granting (Spi_interface.disable granting (World.with3 0)
            Spi_interface.on3).1
          (Spi_interface.disable granting (World.with3 0) Spi_interface.on3).2.1
          [SpiCall.transfer 100 200 4, SpiCall.disable, SpiCall.enable]).1
        (Spi_interface.run granting (Spi_interface.disable granting (World.with3 0)
            Spi_interface.on3).1
          (Spi_interface.disable granting (World.with3 0) Spi_interface.on3).2.1
          [SpiCall.transfer 100 200 4, SpiCall.disable, SpiCall.enable]).2 100 4 =
      ((Spi_interface.run granting (Spi_interface.disable granting (World.with3 0)
            Spi_interface.on3).1
          (Spi_interface.disable granting (World.with3 0) Spi_interface.on3).2.1
          [SpiCall.transfer 100 200 4, SpiCall.disable, SpiCall.enable]).1,
       (Spi_interface.run granting (Spi_interface.disable granting (World.with3 0)
            Spi_interface.on3).1
          (Spi_interface.disable granting (World.with3 0) Spi_interface.on3).2.1
          [SpiCall.transfer 100 200 4, SpiCall.disable, SpiCall.enable]).2, false) :=
  (disable_then_write_fails granting (World.with3 0) Spi_interface.on3).2.2.2
    [SpiCall.transfer 100 200 4, SpiCall.disable, SpiCall.enable]
    ⟨fun h => SpiCall.noConfusion h, fun h => SpiCall.noConfusion h, fun _ => rfl, trivial⟩
    100 4

/-! ## I2CDevice: byte order of `readU16` -/

theorem le_decode (b0 b1 : Nat) (h0 : b0 < 256) (h1 : b1 < 256) :
    ((b1 <<< 8) ||| b0) % 65536 = b1 * 256 + b0 :=
  be_decode b1 b0 h1 h0

/-- What `readU16` does with the bytes on the wire: when the address write transfers 2 bytes
and the read transfers 2 bytes delivering `b0, b1` in wire order, the call issues the write
of `[reg / 256, reg % 256]` followed by one 2-byte read and hands back `b1 * 256 + b0`. -/
theorem readU16_wire_order {σ : Type} (K : Driver σ) (w : World σ) (s : I2CDevice)
    (reg b0 b1 : Nat) (hreg : reg < 65536) (hb0 : b0 < 256) (hb1 : b1 < 256)
    (hw : (sys_write K w s.fd [reg / 256, reg % 256]).2 = 2)
    (hr : (sys_read K (sys_write K w s.fd [reg / 256, reg % 256]).1 s.fd 2).2
      = (2, [b0, b1])) :
    (I2CDevice.readU16 K w s reg).1.trace =
        w.trace ++ [Syscall.write s.fd [reg / 256, reg % 256], Syscall.read s.fd 2] ∧
      (I2CDevice.readU16 K w s reg).2 = Except.ok (b1 * 256 + b0) := by
  have e0 : b0 % 256 = b0 := Nat.mod_eq_of_lt hb0
  have e1 : b1 % 256 = b1 := Nat.mod_eq_of_lt hb1
  have ehi : (reg >>> 8) % 256 = reg / 256 := by
    rw [Nat.shiftRight_eq_div_pow]
    exact Nat.mod_eq_of_lt (by omega)
  have elo : (reg &&& 0xFF) % 256 = reg % 256 := by
    rw [lo_byte]; exact Nat.mod_mod _ _
  simp only [I2CDevice.readU16, I2CDevice.readBytes, ehi, elo, hw, hr]
  simp [store_bytes, List.range_succ, e0, e1, le_decode b0 b1 hb0 hb1]

/-- C11, the code at the failing input. Every register of the loopback device holds 0x1234,
so a read of register 0x0004 delivers the bytes 0x12, 0x34 in wire order. For these bytes
`LeptonI2cIf::read_register` hands back 0x12 * 256 + 0x34 = 0x1234, while
`I2CDevice::readU16` hands back 0x34 * 256 + 0x12 = 0x3412. -/
theorem readU16_swaps_wire_bytes :
    (sys_read loopback (sys_write loopback (Loopback.world 0x1234) 3 [0x00, 0x04]).1 3 2).2
      = (2, [0x12, 0x34]) ∧
    (LeptonI2cIf.read_register loopback (Loopback.world 0x1234) LeptonI2cIf.on3 0x0004).2
      = 0x12 * 256 + 0x34 ∧
    (I2CDevice.readU16 loopback (Loopback.world 0x1234) I2CDevice.on3 0x0004).2
      = Except.ok (0x34 * 256 + 0x12) ∧
    (I2CDevice.readU16 loopback (Loopback.world 0x1234) I2CDevice.on3 0x0004).2
      ≠ Except.ok (0x12 * 256 + 0x34) :=
  ⟨rfl, rfl, rfl, fun h =>
    absurd
      (Except.ok.inj
        (show (Except.ok (0x34 * 256 + 0x12) : Except String Nat) = Except.ok (0x12 * 256 + 0x34)
          from h))
      (by decide)⟩

end Lepton
